import Mathlib

/-!
Shallow embedding of `src/bench.py` (the sites-checker core) and proofs about it.

Modelling conventions:
- Python `float` values reachable in this program are finite rationals or the
  `float("inf")` / `float("-inf")` sentinels; they are embedded as `XFloat`
  (no NaN arises anywhere in the program).
- `round(x, 3)` is embedded as exact decimal rounding to 3 places with
  round-half-to-even ties (`round3`); on the infinities Python `round` raises
  `OverflowError`, which the `Option`-valued fold models as `none`.
- Timing and the network are abstracted by `NetAttempt`: what a single
  `session.get` observes (a response with its `ok` flag and elapsed seconds,
  or a raised `aiohttp.ClientError`).  `asyncio.gather` preserves task order,
  so the concurrent fan-out is embedded as an order-preserving map.
-/

/-- Round-half-to-even of a rational to an integer, as Python's builtin
`round` behaves on (tie-free or tied) values. -/
def pyRound (q : ℚ) : ℤ :=
  let f : ℤ := ⌊q⌋
  let frac : ℚ := q - f
  if frac < 1/2 then f
  else if 1/2 < frac then f + 1
  else if f % 2 = 0 then f else f + 1

/-- Embedding of Python `round(x, 3)` on finite floats: exact rounding to a
multiple of `1/1000`. -/
def round3 (q : ℚ) : ℚ := (pyRound (q * 1000) : ℚ) / 1000

/-- A rational is a `milli` when it is an integer number of thousandths,
i.e. a possible output of `round3`. -/
def IsMilli (q : ℚ) : Prop := ∃ k : ℤ, (k : ℚ) = q * 1000

/-- Embedding of the Python floats reachable in `bench.py`: finite values plus
the `float("inf")` / `float("-inf")` sentinels (used by `HostInfo.min`,
`HostInfo.max` and errored `FetchResult.time`). -/
inductive XFloat where
  | negInf : XFloat
  | fin : ℚ → XFloat
  | posInf : XFloat
deriving DecidableEq

/-- Python builtin `min` on two (non-NaN) floats. -/
def XFloat.fmin : XFloat → XFloat → XFloat
  | .negInf, _ => .negInf
  | _, .negInf => .negInf
  | .posInf, b => b
  | a, .posInf => a
  | .fin a, .fin b => .fin (min a b)

/-- Python builtin `max` on two (non-NaN) floats. -/
def XFloat.fmax : XFloat → XFloat → XFloat
  | .posInf, _ => .posInf
  | _, .posInf => .posInf
  | .negInf, b => b
  | a, .negInf => a
  | .fin a, .fin b => .fin (max a b)

/-- Enum-class `ResultStatus` of `bench.py`: OK (2xx/3xx), FAILED (4xx/5xx),
ERROR (the request itself errored). -/
inductive ResultStatus where
  | OK : ResultStatus
  | FAILED : ResultStatus
  | ERROR : ResultStatus
deriving DecidableEq

/-- Dataclass `FetchResult` of `bench.py`: a status and the request time in
seconds (`float("-inf")` if the request errored). -/
structure FetchResult where
  status : ResultStatus
  time : XFloat
deriving DecidableEq

/-- The transport-level failures of a single probe; in `aiohttp` these
(connection failure, timeout, protocol error, DNS failure) all surface as
subclasses of `aiohttp.ClientError`, the class `fetch_once` catches. -/
inductive TransportError where
  | connection : TransportError
  | timeout : TransportError
  | protocol : TransportError
  | dns : TransportError
deriving DecidableEq

/-- What one `session.get(host)` call observes: either a response (its `ok`
flag, i.e. status < 400, together with the measured elapsed seconds of the
request) or a raised transport error. -/
inductive NetAttempt where
  | response (ok : Bool) (elapsed : ℚ)
  | failure (e : TransportError)
deriving DecidableEq

/-- Embedding of `fetch_once` (bench.py lines 40-56): on a response, the
elapsed time is rounded to 3 decimals and the outcome is classified by
`response.ok`; on a raised `aiohttp.ClientError` the function catches it and
returns `FetchResult(ResultStatus.ERROR, float("-inf"))`.  The function is
total: no exception escapes it. -/
def fetch_once : NetAttempt → FetchResult
  | .response ok elapsed =>
      let seconds := round3 elapsed
      if ok then ⟨ResultStatus.OK, XFloat.fin seconds⟩
      else ⟨ResultStatus.FAILED, XFloat.fin seconds⟩
  | .failure _ => ⟨ResultStatus.ERROR, XFloat.negInf⟩

/-- Dataclass `HostInfo` of `bench.py` with its field defaults:
`success = failed = errors = 0`, `min = float("inf")`, `max = float("-inf")`,
`avg = None`. -/
structure HostInfo where
  host : String
  success : ℕ
  failed : ℕ
  errors : ℕ
  min : XFloat
  max : XFloat
  avg : Option ℚ
deriving DecidableEq

/-- `HostInfo(host = host)`: the freshly initialised record of `fetch_host`. -/
def HostInfo.init (host : String) : HostInfo :=
  ⟨host, 0, 0, 0, XFloat.posInf, XFloat.negInf, none⟩

/-- The `SitesChecker` constructor state: hosts, per-host request count, and
optional output file. -/
structure SitesChecker where
  hosts : List String
  count : ℕ
  output_file : Option String

/-- One iteration of the `for result in results` loop of `fetch_host`
(bench.py lines 121-136).  An ERROR result only bumps `errors`.  A timed
result updates `min`/`max`, replaces a `None` average by `0.0`, applies the
incremental-average formula `round((success * avg + t) / (success + 1), 3)`
(note: the denominator uses `success` only, not `success + failed`), and then
bumps `success` or `failed`.  If a timed result carried an infinite time,
Python's `round` would raise `OverflowError`; that (unreachable for
`fetch_once`-produced results) case is `none`. -/
def foldStep (info : HostInfo) (result : FetchResult) : Option HostInfo :=
  if result.status = ResultStatus.ERROR then
    some { info with errors := info.errors + 1 }
  else
    match result.time with
    | XFloat.fin t =>
        some { info with
          min := info.min.fmin (XFloat.fin t),
          max := info.max.fmax (XFloat.fin t),
          avg := some (round3 (((info.success : ℚ) * (info.avg.getD 0) + t)
                        / ((info.success : ℚ) + 1))),
          success := if result.status = ResultStatus.OK then info.success + 1
                     else info.success,
          failed := if result.status = ResultStatus.OK then info.failed
                    else info.failed + 1 }
    | _ => none

/-- The whole fold of `fetch_host` over the gathered results, in list order;
`none` models an escaping exception. -/
def foldResults (info : HostInfo) : List FetchResult → Option HostInfo
  | [] => some info
  | r :: rs =>
      match foldStep info r with
      | some info2 => foldResults info2 rs
      | none => none

/-- Embedding of `SitesChecker.fetch_host` (bench.py lines 110-137): it
launches `self.count` copies of `fetch_once` against `host`, gathers them
(`asyncio.gather` preserves task order and is embedded as a map over
`List.range self.count`; `net i` is what probe `i`'s `session.get`
observes), and folds the results into a `HostInfo` starting from
`HostInfo(host = host)`. -/
def SitesChecker.fetch_host (self : SitesChecker) (host : String)
    (net : ℕ → NetAttempt) : Option HostInfo :=
  foldResults (HostInfo.init host) (((List.range self.count).map net).map fetch_once)

/-- The `asyncio.gather` over `fetch_host` tasks in `SitesChecker.start`:
one result per host, in host order; any escaping exception fails the run. -/
def gatherHosts (self : SitesChecker) (net : String → ℕ → NetAttempt) :
    List String → Option (List HostInfo)
  | [] => some []
  | h :: hs =>
      match self.fetch_host h (net h), gatherHosts self net hs with
      | some info, some rest => some (info :: rest)
      | _, _ => none

/-- Embedding of `SitesChecker.start` (bench.py lines 139-143): gathers
`fetch_host` over `self.hosts` in order; the result is `self.results`.
`net host i` is what probe `i` of `host` observes on the network. -/
def SitesChecker.start (self : SitesChecker) (net : String → ℕ → NetAttempt) :
    Option (List HostInfo) :=
  gatherHosts self net self.hosts

/-- A run of `n` space characters. -/
def spaces (n : ℕ) : String := String.mk (List.replicate n ' ')

/-- Embedding of CPython `str.center(width)`: if the string is at least as
wide, return it unchanged; otherwise pad with spaces, the extra space going
left exactly when both the margin and the width are odd (CPython computes
`left = marg // 2 + (marg & width & 1)`). -/
def pyCenter (s : String) (w : ℕ) : String :=
  if w ≤ s.length then s
  else
    let marg := w - s.length
    let left := marg / 2 + (if marg % 2 = 1 ∧ w % 2 = 1 then 1 else 0)
    spaces left ++ s ++ spaces (marg - left)

/-- Embedding of `str.title()` for the single all-lowercase words used as
column keys: capitalise the first character. -/
def pyTitle (s : String) : String :=
  match s.data with
  | [] => ""
  | c :: cs => String.mk (c.toUpper :: cs)

/-- Embedding of CPython `str(float)` for the nonnegative exact-3-decimal
values this program prints (every finite float it stores is a `round3`
output): the decimal expansion with trailing fractional zeros stripped, at
least one fractional digit (`str(2.0) = "2.0"`, `str(1.5) = "1.5"`,
`str(0.123) = "0.123"`). -/
def pyStrRat (q : ℚ) : String :=
  let sign := if q < 0 then "-" else ""
  let n : ℕ := (q.num.natAbs * 1000) / q.den
  let ip := n / 1000
  let fr := n % 1000
  let d1 := fr / 100
  let d2 := fr / 10 % 10
  let d3 := fr % 10
  let frStr :=
    if d3 ≠ 0 then toString d1 ++ toString d2 ++ toString d3
    else if d2 ≠ 0 then toString d1 ++ toString d2
    else toString d1
  sign ++ toString ip ++ "." ++ frStr

/-- The dynamically-typed values stored in `HostInfo.__dict__`: the host
string, the integer counters, the `min`/`max` floats and the optional `avg`
float. -/
inductive PyVal where
  | vstr (s : String)
  | vint (n : ℕ)
  | vfloat (x : XFloat)
  | vopt (q : Option ℚ)
deriving DecidableEq

/-- Python `str(value)` on a `HostInfo` field value (`str(None) = "None"`,
`str(float("inf")) = "inf"`, `str(float("-inf")) = "-inf"`). -/
def pyStr : PyVal → String
  | .vstr s => s
  | .vint n => toString n
  | .vfloat (.fin q) => pyStrRat q
  | .vfloat .posInf => "inf"
  | .vfloat .negInf => "-inf"
  | .vopt none => "None"
  | .vopt (some q) => pyStrRat q

/-- The value string used in the column-width pass of `print_table`
(bench.py lines 151-155): only `None` is replaced by the empty string there
(the infinities go through `str` unchanged). -/
def widthStr (v : PyVal) : String :=
  match v with
  | .vopt none => ""
  | _ => pyStr v

/-- The value string used in the data-row pass of `print_table`
(bench.py lines 163-165): `None` and both infinities are replaced by the
empty string. -/
def renderStr (v : PyVal) : String :=
  match v with
  | .vopt none => ""
  | .vfloat .posInf => ""
  | .vfloat .negInf => ""
  | v2 => pyStr v2

/-- `HostInfo.items()`: the `__dict__` values in field-declaration order. -/
def HostInfo.vals (info : HostInfo) : List PyVal :=
  [PyVal.vstr info.host, PyVal.vint info.success, PyVal.vint info.failed,
   PyVal.vint info.errors, PyVal.vfloat info.min, PyVal.vfloat info.max,
   PyVal.vopt info.avg]

/-- The column keys of `print_table` (bench.py line 149). -/
def tableKeys : List String :=
  ["host", "success", "failed", "errors", "min", "max", "avg"]

/-- The initial column widths `len(key) + 2`. -/
def initLens : List ℕ := tableKeys.map (fun k => k.length + 2)

/-- The column-width computation of `print_table` (bench.py lines 150-155):
for every result and every field, the width is raised to
`len(str(value)) + 2` (with `None` already replaced by `""`). -/
def maxLens (results : List HostInfo) : List ℕ :=
  results.foldl
    (fun acc info =>
      List.zipWith (fun m v => Nat.max ((widthStr v).length + 2) m) acc info.vals)
    initLens

/-- The border line of the table (bench.py line 157). -/
def borderLine (ml : List ℕ) : String :=
  "+" ++ String.intercalate "+" (ml.map (fun w => String.mk (List.replicate (w + 2) '-'))) ++ "+"

/-- The header line of the table (bench.py lines 158-159). -/
def headerLine (ml : List ℕ) : String :=
  "|" ++ String.intercalate "|"
    (List.zipWith (fun k w => " " ++ pyCenter (pyTitle k) w ++ " ") tableKeys ml) ++ "|"

/-- The rendered cells of one data row (bench.py lines 162-166): each cell is
`f" {str(value).center(max_lens[key])} |"` after the `None`/infinity
replacement. -/
def rowCells (ml : List ℕ) (info : HostInfo) : List String :=
  List.zipWith (fun v w => " " ++ pyCenter (renderStr v) w ++ " |") info.vals ml

/-- One data row: the leading `"|"` followed by the cells. -/
def renderRow (ml : List ℕ) (info : HostInfo) : String :=
  "|" ++ String.join (rowCells ml info)

/-- Embedding of `SitesChecker.print_table` (bench.py lines 145-172) as the
list of lines it prints (to stdout or to the output file): nothing at all
when `self.results` is empty, else border/header/border followed by a row
and a border per result. -/
def SitesChecker.print_table (results : List HostInfo) : List String :=
  if results.isEmpty then []
  else
    let ml := maxLens results
    [borderLine ml, headerLine ml, borderLine ml] ++
      results.foldr (fun info acc => renderRow ml info :: borderLine ml :: acc) []

/-- Whether `pat` occurs as a contiguous subsequence of `l` (used to state
that rendered cells never contain the literal strings "None", "inf",
"-inf"). -/
def hasSubList (pat : List Char) : List Char → Bool
  | [] => pat.isEmpty
  | c :: cs => pat.isPrefixOf (c :: cs) || hasSubList pat cs

/-- The timed (non-ERROR) result times of a result list, in order. -/
def timedTimes (rs : List FetchResult) : List XFloat :=
  (rs.filter (fun r => decide (¬ r.status = ResultStatus.ERROR))).map FetchResult.time

/-- The standing invariant of the `fetch_host` fold: either no timed result
has been folded yet (counters zero, `avg` still `None`, `min`/`max` still at
their infinite sentinels), or at least one has and then `avg`, `min`, `max`
are all finite with `min ≤ avg ≤ max`, and `min`/`max` are exact 3-decimal
values. -/
def avgInv (info : HostInfo) : Prop :=
  (info.success + info.failed = 0 ∧ info.avg = none ∧
    info.min = XFloat.posInf ∧ info.max = XFloat.negInf)
  ∨ (∃ a mn mx, info.avg = some a ∧ info.min = XFloat.fin mn ∧
      info.max = XFloat.fin mx ∧ mn ≤ a ∧ a ≤ mx ∧ IsMilli mn ∧ IsMilli mx ∧
      0 < info.success + info.failed)

theorem floor_le_pyRound (q : ℚ) : ⌊q⌋ ≤ pyRound q := by
  simp only [pyRound]
  split_ifs <;> omega

theorem pyRound_le_floor_add_one (q : ℚ) : pyRound q ≤ ⌊q⌋ + 1 := by
  simp only [pyRound]
  split_ifs <;> omega

theorem pyRound_intCast (m : ℤ) : pyRound (m : ℚ) = m := by
  simp only [pyRound, Int.floor_intCast, sub_self]
  norm_num

theorem pyRound_le_of_le_int (q : ℚ) (m : ℤ) (h : q ≤ m) : pyRound q ≤ m := by
  rcases eq_or_lt_of_le h with heq | hlt
  · rw [heq, pyRound_intCast]
  · have hf : ⌊q⌋ < m := Int.floor_lt.mpr hlt
    have := pyRound_le_floor_add_one q
    omega

theorem le_pyRound_of_int_le (m : ℤ) (q : ℚ) (h : (m : ℚ) ≤ q) : m ≤ pyRound q :=
  le_trans (Int.le_floor.mpr h) (floor_le_pyRound q)

theorem round3_isMilli (q : ℚ) : IsMilli (round3 q) := by
  refine ⟨pyRound (q * 1000), ?_⟩
  rw [round3]
  field_simp

theorem round3_of_isMilli (q : ℚ) (h : IsMilli q) : round3 q = q := by
  obtain ⟨k, hk⟩ := h
  have hq : q = (k : ℚ) / 1000 := by field_simp; linarith
  rw [round3, ← hk, pyRound_intCast, ← hq]

theorem round3_idem (q : ℚ) : round3 (round3 q) = round3 q :=
  round3_of_isMilli _ (round3_isMilli q)

theorem le_round3_of_isMilli (p c : ℚ) (hp : IsMilli p) (h : p ≤ c) : p ≤ round3 c := by
  obtain ⟨k, hk⟩ := hp
  have h1 : (k : ℚ) ≤ c * 1000 := by
    rw [hk]
    have := mul_le_mul_of_nonneg_right h (by norm_num : (0:ℚ) ≤ 1000)
    linarith
  have h2 : k ≤ pyRound (c * 1000) := le_pyRound_of_int_le _ _ h1
  have h3 : (k : ℚ) ≤ (pyRound (c * 1000) : ℚ) := by exact_mod_cast h2
  have hp2 : p = (k : ℚ) / 1000 := by field_simp; linarith
  rw [round3, hp2]
  linarith

theorem round3_le_of_isMilli (c m : ℚ) (hm : IsMilli m) (h : c ≤ m) : round3 c ≤ m := by
  obtain ⟨k, hk⟩ := hm
  have h1 : c * 1000 ≤ (k : ℚ) := by
    rw [hk]
    have := mul_le_mul_of_nonneg_right h (by norm_num : (0:ℚ) ≤ 1000)
    linarith
  have h2 : pyRound (c * 1000) ≤ k := pyRound_le_of_le_int _ _ h1
  have h3 : (pyRound (c * 1000) : ℚ) ≤ (k : ℚ) := by exact_mod_cast h2
  have hm2 : m = (k : ℚ) / 1000 := by field_simp; linarith
  rw [round3, hm2]
  linarith

theorem isMilli_min (p q : ℚ) (hp : IsMilli p) (hq : IsMilli q) : IsMilli (min p q) := by
  rcases le_total p q with h | h
  · rwa [min_eq_left h]
  · rwa [min_eq_right h]

theorem isMilli_max (p q : ℚ) (hp : IsMilli p) (hq : IsMilli q) : IsMilli (max p q) := by
  rcases le_total p q with h | h
  · rwa [max_eq_right h]
  · rwa [max_eq_left h]

theorem avg_step_bounds (s : ℕ) (a t : ℚ) :
    min a t ≤ ((s : ℚ) * a + t) / ((s : ℚ) + 1) ∧
      ((s : ℚ) * a + t) / ((s : ℚ) + 1) ≤ max a t := by
  have hs0 : (0 : ℚ) ≤ (s : ℚ) := Nat.cast_nonneg s
  have hs : (0 : ℚ) < (s : ℚ) + 1 := by linarith
  constructor
  · rw [le_div_iff₀ hs]
    have h1 : min a t ≤ a := min_le_left a t
    have h2 : min a t ≤ t := min_le_right a t
    nlinarith
  · rw [div_le_iff₀ hs]
    have h1 : a ≤ max a t := le_max_left a t
    have h2 : t ≤ max a t := le_max_right a t
    nlinarith

theorem foldStep_host (info : HostInfo) (r : FetchResult) (out : HostInfo)
    (h : foldStep info r = some out) : out.host = info.host := by
  rcases r with ⟨st, tm⟩
  simp only [foldStep] at h
  by_cases h1 : st = ResultStatus.ERROR
  · rw [if_pos h1] at h
    injection h with h2
    subst h2
    rfl
  · rw [if_neg h1] at h
    cases tm with
    | fin t =>
        injection h with h2
        subst h2
        rfl
    | negInf => cases h
    | posInf => cases h

theorem foldResults_host (rs : List FetchResult) :
    ∀ info out, foldResults info rs = some out → out.host = info.host := by
  induction rs with
  | nil =>
      intro info out h
      simp only [foldResults] at h
      rw [← Option.some.inj h]
  | cons r rs ih =>
      intro info out h
      simp only [foldResults] at h
      cases hstep : foldStep info r with
      | none => rw [hstep] at h; cases h
      | some info2 =>
          rw [hstep] at h
          exact (ih info2 out h).trans (foldStep_host info r info2 hstep)

theorem foldStep_counts (info : HostInfo) (r : FetchResult) (out : HostInfo)
    (h : foldStep info r = some out) :
    out.success + out.failed + out.errors
      = info.success + info.failed + info.errors + 1 := by
  rcases r with ⟨st, tm⟩
  simp only [foldStep] at h
  by_cases h1 : st = ResultStatus.ERROR
  · rw [if_pos h1] at h
    injection h with h2
    subst h2
    simp only []
    omega
  · rw [if_neg h1] at h
    cases tm with
    | fin t =>
        injection h with h2
        subst h2
        by_cases hok : st = ResultStatus.OK <;> simp [hok] <;> omega
    | negInf => cases h
    | posInf => cases h

theorem foldResults_counts (rs : List FetchResult) :
    ∀ info out, foldResults info rs = some out →
      out.success + out.failed + out.errors
        = info.success + info.failed + info.errors + rs.length := by
  induction rs with
  | nil =>
      intro info out h
      simp only [foldResults] at h
      rw [← Option.some.inj h, List.length_nil, Nat.add_zero]
  | cons r rs ih =>
      intro info out h
      simp only [foldResults] at h
      cases hstep : foldStep info r with
      | none => rw [hstep] at h; cases h
      | some info2 =>
          rw [hstep] at h
          have h1 := ih info2 out h
          have h2 := foldStep_counts info r info2 hstep
          simp only [List.length_cons]
          omega

theorem foldStep_success (info : HostInfo) (r : FetchResult) (out : HostInfo)
    (h : foldStep info r = some out) :
    out.success = info.success + (if r.status = ResultStatus.OK then 1 else 0) := by
  rcases r with ⟨st, tm⟩
  simp only [foldStep] at h
  by_cases h1 : st = ResultStatus.ERROR
  · rw [if_pos h1] at h
    injection h with h2
    subst h2
    subst h1
    simp
  · rw [if_neg h1] at h
    cases tm with
    | fin t =>
        injection h with h2
        subst h2
        by_cases hok : st = ResultStatus.OK <;> simp [hok]
    | negInf => cases h
    | posInf => cases h

theorem foldStep_failed (info : HostInfo) (r : FetchResult) (out : HostInfo)
    (h : foldStep info r = some out) :
    out.failed = info.failed + (if r.status = ResultStatus.FAILED then 1 else 0) := by
  rcases r with ⟨st, tm⟩
  simp only [foldStep] at h
  by_cases h1 : st = ResultStatus.ERROR
  · rw [if_pos h1] at h
    injection h with h2
    subst h2
    subst h1
    simp
  · rw [if_neg h1] at h
    cases tm with
    | fin t =>
        injection h with h2
        subst h2
        cases st <;> simp_all
    | negInf => cases h
    | posInf => cases h

theorem foldStep_errors (info : HostInfo) (r : FetchResult) (out : HostInfo)
    (h : foldStep info r = some out) :
    out.errors = info.errors + (if r.status = ResultStatus.ERROR then 1 else 0) := by
  rcases r with ⟨st, tm⟩
  simp only [foldStep] at h
  by_cases h1 : st = ResultStatus.ERROR
  · rw [if_pos h1] at h
    injection h with h2
    subst h2
    subst h1
    simp
  · rw [if_neg h1] at h
    cases tm with
    | fin t =>
        injection h with h2
        subst h2
        simp [h1]
    | negInf => cases h
    | posInf => cases h

theorem foldStep_min_eq (info : HostInfo) (r : FetchResult) (out : HostInfo)
    (h : foldStep info r = some out) :
    out.min = if r.status = ResultStatus.ERROR then info.min
              else info.min.fmin r.time := by
  rcases r with ⟨st, tm⟩
  simp only [foldStep] at h
  by_cases h1 : st = ResultStatus.ERROR
  · rw [if_pos h1] at h
    injection h with h2
    subst h2
    simp [h1]
  · rw [if_neg h1] at h
    cases tm with
    | fin t =>
        injection h with h2
        subst h2
        simp [h1]
    | negInf => cases h
    | posInf => cases h

theorem foldStep_max_eq (info : HostInfo) (r : FetchResult) (out : HostInfo)
    (h : foldStep info r = some out) :
    out.max = if r.status = ResultStatus.ERROR then info.max
              else info.max.fmax r.time := by
  rcases r with ⟨st, tm⟩
  simp only [foldStep] at h
  by_cases h1 : st = ResultStatus.ERROR
  · rw [if_pos h1] at h
    injection h with h2
    subst h2
    simp [h1]
  · rw [if_neg h1] at h
    cases tm with
    | fin t =>
        injection h with h2
        subst h2
        simp [h1]
    | negInf => cases h
    | posInf => cases h

theorem foldResults_success (rs : List FetchResult) :
    ∀ info out, foldResults info rs = some out →
      out.success = info.success
        + rs.countP (fun r => decide (r.status = ResultStatus.OK)) := by
  induction rs with
  | nil =>
      intro info out h
      simp only [foldResults] at h
      rw [← Option.some.inj h]
      simp
  | cons r rs ih =>
      intro info out h
      simp only [foldResults] at h
      cases hstep : foldStep info r with
      | none => rw [hstep] at h; cases h
      | some info2 =>
          rw [hstep] at h
          have h1 := ih info2 out h
          have h2 := foldStep_success info r info2 hstep
          rw [List.countP_cons]
          by_cases hok : r.status = ResultStatus.OK <;> simp [hok] at h2 ⊢ <;> omega

theorem foldResults_failed (rs : List FetchResult) :
    ∀ info out, foldResults info rs = some out →
      out.failed = info.failed
        + rs.countP (fun r => decide (r.status = ResultStatus.FAILED)) := by
  induction rs with
  | nil =>
      intro info out h
      simp only [foldResults] at h
      rw [← Option.some.inj h]
      simp
  | cons r rs ih =>
      intro info out h
      simp only [foldResults] at h
      cases hstep : foldStep info r with
      | none => rw [hstep] at h; cases h
      | some info2 =>
          rw [hstep] at h
          have h1 := ih info2 out h
          have h2 := foldStep_failed info r info2 hstep
          rw [List.countP_cons]
          by_cases hf : r.status = ResultStatus.FAILED <;> simp [hf] at h2 ⊢ <;> omega

theorem foldResults_errors (rs : List FetchResult) :
    ∀ info out, foldResults info rs = some out →
      out.errors = info.errors
        + rs.countP (fun r => decide (r.status = ResultStatus.ERROR)) := by
  induction rs with
  | nil =>
      intro info out h
      simp only [foldResults] at h
      rw [← Option.some.inj h]
      simp
  | cons r rs ih =>
      intro info out h
      simp only [foldResults] at h
      cases hstep : foldStep info r with
      | none => rw [hstep] at h; cases h
      | some info2 =>
          rw [hstep] at h
          have h1 := ih info2 out h
          have h2 := foldStep_errors info r info2 hstep
          rw [List.countP_cons]
          by_cases he : r.status = ResultStatus.ERROR <;> simp [he] at h2 ⊢ <;> omega

theorem foldResults_min (rs : List FetchResult) :
    ∀ info out, foldResults info rs = some out →
      out.min = List.foldl XFloat.fmin info.min (timedTimes rs) := by
  induction rs with
  | nil =>
      intro info out h
      simp only [foldResults] at h
      rw [← Option.some.inj h]
      rfl
  | cons r rs ih =>
      intro info out h
      simp only [foldResults] at h
      cases hstep : foldStep info r with
      | none => rw [hstep] at h; cases h
      | some info2 =>
          rw [hstep] at h
          have h1 := ih info2 out h
          have h2 := foldStep_min_eq info r info2 hstep
          by_cases he : r.status = ResultStatus.ERROR
          · rw [if_pos he] at h2
            rw [h1, h2]
            simp [timedTimes, List.filter_cons, he]
          · rw [if_neg he] at h2
            rw [h1, h2]
            simp [timedTimes, List.filter_cons, he]

theorem foldResults_max (rs : List FetchResult) :
    ∀ info out, foldResults info rs = some out →
      out.max = List.foldl XFloat.fmax info.max (timedTimes rs) := by
  induction rs with
  | nil =>
      intro info out h
      simp only [foldResults] at h
      rw [← Option.some.inj h]
      rfl
  | cons r rs ih =>
      intro info out h
      simp only [foldResults] at h
      cases hstep : foldStep info r with
      | none => rw [hstep] at h; cases h
      | some info2 =>
          rw [hstep] at h
          have h1 := ih info2 out h
          have h2 := foldStep_max_eq info r info2 hstep
          by_cases he : r.status = ResultStatus.ERROR
          · rw [if_pos he] at h2
            rw [h1, h2]
            simp [timedTimes, List.filter_cons, he]
          · rw [if_neg he] at h2
            rw [h1, h2]
            simp [timedTimes, List.filter_cons, he]

theorem fmin_right_comm (a x y : XFloat) :
    (a.fmin x).fmin y = (a.fmin y).fmin x := by
  cases a <;> cases x <;> cases y <;>
    simp [XFloat.fmin, min_assoc, min_comm, min_left_comm]

theorem fmax_right_comm (a x y : XFloat) :
    (a.fmax x).fmax y = (a.fmax y).fmax x := by
  cases a <;> cases x <;> cases y <;>
    simp [XFloat.fmax, max_assoc, max_comm, max_left_comm]

theorem perm_foldl_fmin {l1 l2 : List XFloat} (p : l1.Perm l2) :
    ∀ a, List.foldl XFloat.fmin a l1 = List.foldl XFloat.fmin a l2 := by
  induction p with
  | nil => intro a; rfl
  | cons x p ih => intro a; simp only [List.foldl_cons]; exact ih _
  | swap x y l => intro a; simp only [List.foldl_cons]; rw [fmin_right_comm]
  | trans p1 p2 ih1 ih2 => intro a; rw [ih1, ih2]

theorem perm_foldl_fmax {l1 l2 : List XFloat} (p : l1.Perm l2) :
    ∀ a, List.foldl XFloat.fmax a l1 = List.foldl XFloat.fmax a l2 := by
  induction p with
  | nil => intro a; rfl
  | cons x p ih => intro a; simp only [List.foldl_cons]; exact ih _
  | swap x y l => intro a; simp only [List.foldl_cons]; rw [fmax_right_comm]
  | trans p1 p2 ih1 ih2 => intro a; rw [ih1, ih2]

theorem timedTimes_perm {rs1 rs2 : List FetchResult} (p : rs1.Perm rs2) :
    (timedTimes rs1).Perm (timedTimes rs2) := by
  unfold timedTimes
  exact List.Perm.map FetchResult.time (List.Perm.filter _ p)

theorem foldStep_avgInv (info : HostInfo) (r : FetchResult) (out : HostInfo)
    (hr : ∀ t, r.time = XFloat.fin t → IsMilli t)
    (hinv : avgInv info) (h : foldStep info r = some out) : avgInv out := by
  rcases r with ⟨st, tm⟩
  simp only [foldStep] at h
  by_cases h1 : st = ResultStatus.ERROR
  · rw [if_pos h1] at h
    injection h with h2
    subst h2
    rcases hinv with ⟨hc, ha, hmn, hmx⟩ | ⟨a, mn, mx, ha, hmn, hmx, h4, h5, h6, h7, h8⟩
    · exact Or.inl ⟨hc, ha, hmn, hmx⟩
    · exact Or.inr ⟨a, mn, mx, ha, hmn, hmx, h4, h5, h6, h7, h8⟩
  · rw [if_neg h1] at h
    cases tm with
    | negInf => cases h
    | posInf => cases h
    | fin t =>
        injection h with h2
        subst h2
        have hmt : IsMilli t := hr t rfl
        right
        rcases hinv with ⟨hc, ha, hmn, hmx⟩ | ⟨a, mn, mx, ha, hmn, hmx, h4, h5, h6, h7, h8⟩
        · have hs0 : info.success = 0 := by omega
          have hexpr : round3 (((info.success : ℚ) * (info.avg.getD 0) + t)
              / ((info.success : ℚ) + 1)) = t := by
            rw [hs0, ha]
            norm_num
            exact round3_of_isMilli t hmt
          refine ⟨t, t, t, ?_, ?_, ?_, le_refl t, le_refl t, hmt, hmt, ?_⟩
          · show some (round3 _) = some t
            rw [hexpr]
          · show info.min.fmin (XFloat.fin t) = XFloat.fin t
            rw [hmn]
            rfl
          · show info.max.fmax (XFloat.fin t) = XFloat.fin t
            rw [hmx]
            rfl
          · show 0 < (if st = ResultStatus.OK then info.success + 1
                      else info.success) +
                  (if st = ResultStatus.OK then info.failed else info.failed + 1)
            split_ifs <;> omega
        · have hgetD : info.avg.getD 0 = a := by rw [ha]; rfl
          have hb := avg_step_bounds info.success a t
          have hminle : min mn t ≤ ((info.success : ℚ) * a + t)
              / ((info.success : ℚ) + 1) :=
            le_trans (min_le_min h4 (le_refl t)) hb.1
          have hmaxle : ((info.success : ℚ) * a + t)
              / ((info.success : ℚ) + 1) ≤ max mx t :=
            le_trans hb.2 (max_le_max h5 (le_refl t))
          refine ⟨round3 (((info.success : ℚ) * (info.avg.getD 0) + t)
              / ((info.success : ℚ) + 1)), min mn t, max mx t,
            rfl, ?_, ?_, ?_, ?_, isMilli_min mn t h6 hmt, isMilli_max mx t h7 hmt, ?_⟩
          · show info.min.fmin (XFloat.fin t) = XFloat.fin (min mn t)
            rw [hmn]
            rfl
          · show info.max.fmax (XFloat.fin t) = XFloat.fin (max mx t)
            rw [hmx]
            rfl
          · rw [hgetD]
            exact le_round3_of_isMilli _ _ (isMilli_min mn t h6 hmt) hminle
          · rw [hgetD]
            exact round3_le_of_isMilli _ _ (isMilli_max mx t h7 hmt) hmaxle
          · show 0 < (if st = ResultStatus.OK then info.success + 1
                      else info.success) +
                  (if st = ResultStatus.OK then info.failed else info.failed + 1)
            split_ifs <;> omega

theorem foldResults_avgInv (rs : List FetchResult)
    (hr : ∀ r ∈ rs, ∀ t, r.time = XFloat.fin t → IsMilli t) :
    ∀ info out, avgInv info → foldResults info rs = some out → avgInv out := by
  induction rs with
  | nil =>
      intro info out hinv h
      simp only [foldResults] at h
      rw [← Option.some.inj h]
      exact hinv
  | cons r rs ih =>
      intro info out hinv h
      simp only [foldResults] at h
      cases hstep : foldStep info r with
      | none => rw [hstep] at h; cases h
      | some info2 =>
          rw [hstep] at h
          have hr1 : ∀ t, r.time = XFloat.fin t → IsMilli t :=
            hr r (List.mem_cons_self r rs)
          have hr2 : ∀ s ∈ rs, ∀ t, s.time = XFloat.fin t → IsMilli t :=
            fun s hs => hr s (List.mem_cons_of_mem r hs)
          exact ih hr2 info2 out (foldStep_avgInv info r info2 hr1 hinv hstep) h

theorem fetch_once_time_isMilli (att : NetAttempt) :
    ∀ t, (fetch_once att).time = XFloat.fin t → IsMilli t := by
  cases att with
  | response ok elapsed =>
      intro t ht
      cases ok <;>
        · simp only [fetch_once] at ht
          injection ht with ht2
          rw [← ht2]
          exact round3_isMilli elapsed
  | failure e =>
      intro t ht
      simp [fetch_once] at ht

theorem avgInv_init (host : String) : avgInv (HostInfo.init host) :=
  Or.inl ⟨rfl, rfl, rfl, rfl⟩

theorem fetch_host_avgInv (self : SitesChecker) (host : String)
    (net : ℕ → NetAttempt) (out : HostInfo)
    (h : self.fetch_host host net = some out) : avgInv out := by
  have hr : ∀ r ∈ ((List.range self.count).map net).map fetch_once,
      ∀ t, r.time = XFloat.fin t → IsMilli t := by
    intro r hrm
    rcases List.mem_map.mp hrm with ⟨att, hatt, hfr⟩
    rw [← hfr]
    exact fetch_once_time_isMilli att
  exact foldResults_avgInv _ hr _ _ (avgInv_init host) h

theorem round3_one : round3 1 = 1 := round3_of_isMilli 1 ⟨1000, by norm_num⟩

theorem round3_two : round3 2 = 2 := round3_of_isMilli 2 ⟨2000, by norm_num⟩

theorem rs_ok_ne_error : ResultStatus.OK ≠ ResultStatus.ERROR := by decide

theorem rs_failed_ne_error : ResultStatus.FAILED ≠ ResultStatus.ERROR := by decide

theorem rs_failed_ne_ok : ResultStatus.FAILED ≠ ResultStatus.OK := by decide

theorem gatherHosts_map_host (self : SitesChecker) (net : String → ℕ → NetAttempt) :
    ∀ hs report, gatherHosts self net hs = some report →
      report.map HostInfo.host = hs := by
  intro hs
  induction hs with
  | nil =>
      intro report h
      simp only [gatherHosts] at h
      rw [← Option.some.inj h]
      rfl
  | cons hd tl ih =>
      intro report h
      simp only [gatherHosts] at h
      cases hfh : self.fetch_host hd (net hd) with
      | none => rw [hfh] at h; cases h
      | some info =>
          rw [hfh] at h
          cases hg : gatherHosts self net tl with
          | none => rw [hg] at h; cases h
          | some rest =>
              rw [hg] at h
              rw [← Option.some.inj h]
              have hhost : info.host = hd := by
                simp only [SitesChecker.fetch_host] at hfh
                exact foldResults_host _ _ _ hfh
              simp [ih rest hg, hhost]

/-- C10: with `count = 0`, `fetch_host` is total and returns the freshly
initialised record: zero counters, `avg = None`, and `min`/`max` still at the
`+inf`/`-inf` sentinel defaults; no exception escapes (the result is `some`,
never the `none` that models a raised exception). -/
theorem c10_count_zero_total (hosts : List String) (ofile : Option String)
    (host : String) (net : ℕ → NetAttempt) :
    SitesChecker.fetch_host ⟨hosts, 0, ofile⟩ host net
      = some ⟨host, 0, 0, 0, XFloat.posInf, XFloat.negInf, none⟩ := rfl

/-- C4: on every transport-level failure (all of which `aiohttp` raises as
`aiohttp.ClientError` subclasses: connection, timeout, protocol, DNS
failures), `fetch_once` returns the ERROR outcome whose time field is the
meaningless `-inf` sentinel, never a finite elapsed value; `fetch_once` is a
total function into `FetchResult`, so the failure is never propagated to its
caller. -/
theorem c4_transport_error_to_error_outcome (e : TransportError) :
    fetch_once (NetAttempt.failure e) = ⟨ResultStatus.ERROR, XFloat.negInf⟩ ∧
      ∀ q : ℚ, (fetch_once (NetAttempt.failure e)).time ≠ XFloat.fin q := by
  refine ⟨rfl, ?_⟩
  intro q h
  cases h

/-- C5: for `count ≥ 1`, the three counters of the aggregated `HostInfo` sum
to the configured probe count: each probe outcome increments exactly one of
`success`, `failed`, `errors`. -/
theorem c5_counters_sum_to_count (self : SitesChecker) (host : String)
    (net : ℕ → NetAttempt) (info : HostInfo) (_hc : 1 ≤ self.count)
    (h : self.fetch_host host net = some info) :
    info.success + info.failed + info.errors = self.count := by
  simp only [SitesChecker.fetch_host] at h
  have h1 := foldResults_counts _ _ _ h
  simp only [HostInfo.init, List.length_map, List.length_range] at h1
  omega

theorem c5_counters_sum_to_count_witness :
    1 ≤ (3 : ℕ) ∧
      SitesChecker.fetch_host ⟨["https://a.test"], 3, none⟩ "https://a.test"
        (fun i => if i = 0 then NetAttempt.failure TransportError.dns
                  else NetAttempt.response true 1)
        = some ⟨"https://a.test", 2, 0, 1, XFloat.fin 1, XFloat.fin 1, some 1⟩ ∧
      (2 + 0 + 1 : ℕ) = 3 :=
  ⟨by norm_num,
   by
    norm_num [SitesChecker.fetch_host, foldResults, foldStep, fetch_once,
      HostInfo.init, XFloat.fmin, XFloat.fmax, List.range_succ, round3_one,
      rs_ok_ne_error, rs_failed_ne_error, rs_failed_ne_ok],
   c5_counters_sum_to_count ⟨["https://a.test"], 3, none⟩ "https://a.test"
      (fun i => if i = 0 then NetAttempt.failure TransportError.dns
                else NetAttempt.response true 1)
      ⟨"https://a.test", 2, 0, 1, XFloat.fin 1, XFloat.fin 1, some 1⟩
      (by norm_num)
      (by
        norm_num [SitesChecker.fetch_host, foldResults, foldStep, fetch_once,
          HostInfo.init, XFloat.fmin, XFloat.fmax, List.range_succ, round3_one,
          rs_ok_ne_error, rs_failed_ne_error, rs_failed_ne_ok])⟩

/-- C8: an empty host list is legal and not an error: `start` yields the
empty report (`some []`, no exception) and `print_table` on the empty result
list emits nothing at all — no table, no header rows. -/
theorem c8_empty_hosts_empty_report (self : SitesChecker)
    (net : String → ℕ → NetAttempt) (h : self.hosts = []) :
    self.start net = some [] ∧ SitesChecker.print_table [] = [] := by
  constructor
  · simp [SitesChecker.start, h, gatherHosts]
  · rfl

theorem c8_empty_hosts_empty_report_witness :
    SitesChecker.start ⟨[], 1, none⟩ (fun _ _ => NetAttempt.failure TransportError.dns)
        = some [] ∧
      SitesChecker.print_table [] = [] :=
  c8_empty_hosts_empty_report ⟨[], 1, none⟩
    (fun _ _ => NetAttempt.failure TransportError.dns) rfl

/-- C7: the report produced by `start` contains exactly one record per input
host, in input order, regardless of the network behaviour `net`: its
projection to host names is the input host list itself, so in particular its
length equals the number of hosts. -/
theorem c7_report_order_preserved (self : SitesChecker)
    (net : String → ℕ → NetAttempt) (report : List HostInfo)
    (h : self.start net = some report) :
    report.map HostInfo.host = self.hosts ∧
      report.length = self.hosts.length := by
  have h1 := gatherHosts_map_host self net self.hosts report h
  refine ⟨h1, ?_⟩
  rw [← h1, List.length_map]

theorem c7_report_order_preserved_witness :
    SitesChecker.start ⟨["https://a.test", "https://b.test"], 1, none⟩
        (fun _ _ => NetAttempt.response true 1)
        = some [⟨"https://a.test", 1, 0, 0, XFloat.fin 1, XFloat.fin 1, some 1⟩,
                ⟨"https://b.test", 1, 0, 0, XFloat.fin 1, XFloat.fin 1, some 1⟩] ∧
      ([⟨"https://a.test", 1, 0, 0, XFloat.fin 1, XFloat.fin 1, some 1⟩,
        ⟨"https://b.test", 1, 0, 0, XFloat.fin 1, XFloat.fin 1, some 1⟩] : List HostInfo).map
          HostInfo.host = ["https://a.test", "https://b.test"] :=
  ⟨by
    norm_num [SitesChecker.start, gatherHosts, SitesChecker.fetch_host,
      foldResults, foldStep, fetch_once, HostInfo.init, XFloat.fmin,
      XFloat.fmax, List.range_succ, round3_one, rs_ok_ne_error],
   (c7_report_order_preserved ⟨["https://a.test", "https://b.test"], 1, none⟩
      (fun _ _ => NetAttempt.response true 1)
      [⟨"https://a.test", 1, 0, 0, XFloat.fin 1, XFloat.fin 1, some 1⟩,
       ⟨"https://b.test", 1, 0, 0, XFloat.fin 1, XFloat.fin 1, some 1⟩]
      (by
        norm_num [SitesChecker.start, gatherHosts, SitesChecker.fetch_host,
          foldResults, foldStep, fetch_once, HostInfo.init, XFloat.fmin,
          XFloat.fmax, List.range_succ, round3_one, rs_ok_ne_error])).1⟩

/-- C1 (code bug): evaluation of `fetch_host` at the failing input — probe 0
FAILED after 2 seconds, probe 1 OK after 1 second.  The code returns
`avg = 1.0`, but the arithmetic mean of the timed elapsed values is
`(2 + 1) / 2 = 1.5`, already an exact 3-decimal value (`round3` fixes it),
so the spec's `new_avg = (prior_timed_count * prior_avg + t) /
(prior_timed_count + 1)` with `prior_timed_count = success + failed` is
violated: bench.py line 130 divides by `info.success + 1` instead. -/
theorem c1_incremental_avg_code_bug :
    (SitesChecker.fetch_host ⟨["https://a.test"], 2, none⟩ "https://a.test"
        (fun i => if i = 0 then NetAttempt.response false 2
                  else NetAttempt.response true 1)).map
        (fun i => (i.success, i.failed, i.errors, i.avg))
      = some (1, 1, 0, some 1) ∧
      round3 ((2 + 1) / 2) = 3 / 2 ∧ ((3 : ℚ) / 2) ≠ 1 := by
  refine ⟨?_, ?_, by norm_num⟩
  case refine_2 =>
    rw [round3_of_isMilli ((2 + 1) / 2 : ℚ) ⟨1500, by norm_num⟩]
    norm_num
  norm_num [SitesChecker.fetch_host, foldResults, foldStep, fetch_once,
    HostInfo.init, XFloat.fmin, XFloat.fmax, List.range_succ, round3_one,
    round3_two, rs_ok_ne_error, rs_failed_ne_error, rs_failed_ne_ok]

/-- C2 (counterexample): the same multiset of two FAILED outcomes (1 s and
2 s), folded by `fetch_host` in the two possible orders, yields different
`avg` values (2.0 versus 1.0) — the fold is not order-independent, because
the incremental-average denominator stays `success + 1 = 1` for FAILED
outcomes, so the last timed value always wins. -/
theorem c2_fold_order_counterexample :
    ((((List.range 2).map
          (fun i => NetAttempt.response false (if i = 0 then 1 else 2))).map
        fetch_once).Perm
      (((List.range 2).map
          (fun i => NetAttempt.response false (if i = 0 then 2 else 1))).map
        fetch_once)) ∧
      (SitesChecker.fetch_host ⟨["https://a.test"], 2, none⟩ "https://a.test"
          (fun i => NetAttempt.response false (if i = 0 then 1 else 2))).map
          HostInfo.avg = some (some 2) ∧
      (SitesChecker.fetch_host ⟨["https://a.test"], 2, none⟩ "https://a.test"
          (fun i => NetAttempt.response false (if i = 0 then 2 else 1))).map
          HostInfo.avg = some (some 1) := by
  refine ⟨?_, ?_, ?_⟩
  · have e1 : (((List.range 2).map
          (fun i => NetAttempt.response false (if i = 0 then 1 else 2))).map
        fetch_once)
        = [⟨ResultStatus.FAILED, XFloat.fin 1⟩, ⟨ResultStatus.FAILED, XFloat.fin 2⟩] := by
      norm_num [List.range_succ, fetch_once, round3_one, round3_two]
    have e2 : (((List.range 2).map
          (fun i => NetAttempt.response false (if i = 0 then 2 else 1))).map
        fetch_once)
        = [⟨ResultStatus.FAILED, XFloat.fin 2⟩, ⟨ResultStatus.FAILED, XFloat.fin 1⟩] := by
      norm_num [List.range_succ, fetch_once, round3_one, round3_two]
    rw [e1, e2]
    exact List.Perm.swap _ _ _
  · norm_num [SitesChecker.fetch_host, foldResults, foldStep, fetch_once,
      HostInfo.init, XFloat.fmin, XFloat.fmax, List.range_succ, round3_one,
      round3_two, rs_ok_ne_error, rs_failed_ne_error, rs_failed_ne_ok]
  · norm_num [SitesChecker.fetch_host, foldResults, foldStep, fetch_once,
      HostInfo.init, XFloat.fmin, XFloat.fmax, List.range_succ, round3_one,
      round3_two, rs_ok_ne_error, rs_failed_ne_error, rs_failed_ne_ok]

/-- C2 (amended): the `fetch_host` fold is order-independent in its
`success`, `failed`, `errors` counters and its `min` and `max` fields: any
two permuted result lists that both fold without error yield identical
values for those five fields.  (The counterexample shows `avg` is not
order-independent, so the claim cannot include it.) -/
theorem c2_counters_min_max_order_independent (host : String)
    (rs1 rs2 : List FetchResult) (i1 i2 : HostInfo) (hp : rs1.Perm rs2)
    (h1 : foldResults (HostInfo.init host) rs1 = some i1)
    (h2 : foldResults (HostInfo.init host) rs2 = some i2) :
    i1.success = i2.success ∧ i1.failed = i2.failed ∧ i1.errors = i2.errors ∧
      i1.min = i2.min ∧ i1.max = i2.max := by
  refine ⟨?_, ?_, ?_, ?_, ?_⟩
  · rw [foldResults_success _ _ _ h1, foldResults_success _ _ _ h2,
      hp.countP_eq]
  · rw [foldResults_failed _ _ _ h1, foldResults_failed _ _ _ h2,
      hp.countP_eq]
  · rw [foldResults_errors _ _ _ h1, foldResults_errors _ _ _ h2,
      hp.countP_eq]
  · rw [foldResults_min _ _ _ h1, foldResults_min _ _ _ h2]
    exact perm_foldl_fmin (timedTimes_perm hp) _
  · rw [foldResults_max _ _ _ h1, foldResults_max _ _ _ h2]
    exact perm_foldl_fmax (timedTimes_perm hp) _

theorem c2_counters_min_max_order_independent_witness :
    ([⟨ResultStatus.FAILED, XFloat.fin 1⟩, ⟨ResultStatus.ERROR, XFloat.negInf⟩]
        : List FetchResult).Perm
      [⟨ResultStatus.ERROR, XFloat.negInf⟩, ⟨ResultStatus.FAILED, XFloat.fin 1⟩] ∧
    foldResults (HostInfo.init "https://a.test")
        [⟨ResultStatus.FAILED, XFloat.fin 1⟩, ⟨ResultStatus.ERROR, XFloat.negInf⟩]
      = some ⟨"https://a.test", 0, 1, 1, XFloat.fin 1, XFloat.fin 1, some 1⟩ ∧
    foldResults (HostInfo.init "https://a.test")
        [⟨ResultStatus.ERROR, XFloat.negInf⟩, ⟨ResultStatus.FAILED, XFloat.fin 1⟩]
      = some ⟨"https://a.test", 0, 1, 1, XFloat.fin 1, XFloat.fin 1, some 1⟩ ∧
    ((0 : ℕ) = 0 ∧ (1 : ℕ) = 1 ∧ (1 : ℕ) = 1 ∧
      XFloat.fin 1 = XFloat.fin 1 ∧ XFloat.fin 1 = XFloat.fin 1) :=
  ⟨List.Perm.swap _ _ _,
   by
    norm_num [foldResults, foldStep, fetch_once, HostInfo.init, XFloat.fmin,
      XFloat.fmax, round3_one, rs_failed_ne_error, rs_failed_ne_ok],
   by
    norm_num [foldResults, foldStep, fetch_once, HostInfo.init, XFloat.fmin,
      XFloat.fmax, round3_one, rs_failed_ne_error, rs_failed_ne_ok],
   c2_counters_min_max_order_independent "https://a.test"
    [⟨ResultStatus.FAILED, XFloat.fin 1⟩, ⟨ResultStatus.ERROR, XFloat.negInf⟩]
    [⟨ResultStatus.ERROR, XFloat.negInf⟩, ⟨ResultStatus.FAILED, XFloat.fin 1⟩]
    ⟨"https://a.test", 0, 1, 1, XFloat.fin 1, XFloat.fin 1, some 1⟩
    ⟨"https://a.test", 0, 1, 1, XFloat.fin 1, XFloat.fin 1, some 1⟩
    (List.Perm.swap _ _ _)
    (by
      norm_num [foldResults, foldStep, fetch_once, HostInfo.init, XFloat.fmin,
        XFloat.fmax, round3_one, rs_failed_ne_error, rs_failed_ne_ok])
    (by
      norm_num [foldResults, foldStep, fetch_once, HostInfo.init, XFloat.fmin,
        XFloat.fmax, round3_one, rs_failed_ne_error, rs_failed_ne_ok])⟩

/-- C3 (counterexample): when the single probe errors, the `HostInfo`
returned by `fetch_host` still holds the `+inf`/`-inf` sentinel values in its
`min`/`max` fields of the data model — they are not "cleared to absent", only
`avg` is `None`; the sentinels are blanked no earlier than at rendering. -/
theorem c3_sentinels_retained_counterexample :
    (SitesChecker.fetch_host ⟨["https://a.test"], 1, none⟩ "https://a.test"
        (fun _ => NetAttempt.failure TransportError.connection)).map
        (fun i => (i.success + i.failed, i.min, i.max, i.avg))
      = some (0, XFloat.posInf, XFloat.negInf, (none : Option ℚ)) := rfl

/-- C3 (amended): in every `HostInfo` produced by `fetch_host`, `avg` is
present (`some`) exactly when `success + failed > 0`; and exactly in that
same case `min` differs from the `+inf` sentinel and `max` differs from the
`-inf` sentinel.  When every probe errored, `avg` is `None` while `min`/`max`
sit at their sentinel values (absence for them is represented by the
sentinels, not by a `None`). -/
theorem c3_avg_absent_iff_min_max_sentinels (self : SitesChecker)
    (host : String) (net : ℕ → NetAttempt) (info : HostInfo)
    (h : self.fetch_host host net = some info) :
    (info.avg.isSome ↔ 0 < info.success + info.failed) ∧
      (info.min ≠ XFloat.posInf ↔ 0 < info.success + info.failed) ∧
      (info.max ≠ XFloat.negInf ↔ 0 < info.success + info.failed) := by
  have hinv := fetch_host_avgInv self host net info h
  rcases hinv with ⟨hc, ha, hmn, hmx⟩ | ⟨a, mn, mx, ha, hmn, hmx, h4, h5, h6, h7, h8⟩
  · rw [ha, hmn, hmx]
    simp [hc]
  · rw [ha, hmn, hmx]
    simp [h8]

theorem c3_avg_absent_iff_min_max_sentinels_witness :
    SitesChecker.fetch_host ⟨["https://a.test"], 1, none⟩ "https://a.test"
        (fun _ => NetAttempt.failure TransportError.connection)
      = some ⟨"https://a.test", 0, 0, 1, XFloat.posInf, XFloat.negInf, none⟩ ∧
    (((none : Option ℚ).isSome ↔ 0 < 0 + 0) ∧
      (XFloat.posInf ≠ XFloat.posInf ↔ 0 < 0 + 0) ∧
      (XFloat.negInf ≠ XFloat.negInf ↔ 0 < 0 + 0)) :=
  ⟨rfl,
   c3_avg_absent_iff_min_max_sentinels ⟨["https://a.test"], 1, none⟩
    "https://a.test" (fun _ => NetAttempt.failure TransportError.connection)
    ⟨"https://a.test", 0, 0, 1, XFloat.posInf, XFloat.negInf, none⟩ rfl⟩

/-- C6: whenever the `HostInfo` produced by `fetch_host` has all of `avg`,
`min`, `max` finite (at least one timed outcome), `min ≤ avg ≤ max` holds —
in whatever order the timed values arrived, because each incremental average
is a convex combination of the previous average and the new (3-decimal)
value, and 3-decimal rounding cannot cross the 3-decimal `min`/`max`
bounds. -/
theorem c6_min_le_avg_le_max (self : SitesChecker) (host : String)
    (net : ℕ → NetAttempt) (info : HostInfo) (a mn mx : ℚ)
    (h : self.fetch_host host net = some info) (ha : info.avg = some a)
    (hmn : info.min = XFloat.fin mn) (hmx : info.max = XFloat.fin mx) :
    mn ≤ a ∧ a ≤ mx := by
  have hinv := fetch_host_avgInv self host net info h
  rcases hinv with ⟨hc0, ha0, hmn0, hmx0⟩ | ⟨a2, mn2, mx2, ha2, hmn2, hmx2, h4, h5, h6, h7, h8⟩
  · rw [ha0] at ha
    cases ha
  · rw [ha2] at ha
    rw [hmn2] at hmn
    rw [hmx2] at hmx
    injection ha with ea
    injection hmn with emn
    injection hmx with emx
    subst ea
    subst emn
    subst emx
    exact ⟨h4, h5⟩

theorem c6_min_le_avg_le_max_witness :
    SitesChecker.fetch_host ⟨["https://a.test"], 2, none⟩ "https://a.test"
        (fun i => if i = 0 then NetAttempt.response false 2
                  else NetAttempt.response true 1)
      = some ⟨"https://a.test", 1, 1, 0, XFloat.fin 1, XFloat.fin 2, some 1⟩ ∧
    ((1 : ℚ) ≤ 1 ∧ (1 : ℚ) ≤ 2) :=
  ⟨by
    norm_num [SitesChecker.fetch_host, foldResults, foldStep, fetch_once,
      HostInfo.init, XFloat.fmin, XFloat.fmax, List.range_succ, round3_one,
      round3_two, rs_ok_ne_error, rs_failed_ne_error, rs_failed_ne_ok],
   c6_min_le_avg_le_max ⟨["https://a.test"], 2, none⟩ "https://a.test"
    (fun i => if i = 0 then NetAttempt.response false 2
              else NetAttempt.response true 1)
    ⟨"https://a.test", 1, 1, 0, XFloat.fin 1, XFloat.fin 2, some 1⟩ 1 1 2
    (by
      norm_num [SitesChecker.fetch_host, foldResults, foldStep, fetch_once,
        HostInfo.init, XFloat.fmin, XFloat.fmax, List.range_succ, round3_one,
        round3_two, rs_ok_ne_error, rs_failed_ne_error, rs_failed_ne_ok])
    rfl rfl rfl⟩

theorem empty_string_data : ("" : String).data = [] := rfl

theorem pyCenter_empty_data (w : ℕ) (ch : Char)
    (h : ch ∈ (pyCenter "" w).data) : ch = ' ' := by
  simp only [pyCenter] at h
  split_ifs at h with h1 h2
  · simp [empty_string_data] at h
  · simp only [String.data_append, spaces, empty_string_data, List.append_nil,
      List.nil_append, List.mem_append] at h
    rcases h with h3 | h3 <;> exact List.eq_of_mem_replicate h3
  · simp only [String.data_append, spaces, empty_string_data, List.append_nil,
      List.nil_append, List.mem_append] at h
    rcases h with h3 | h3 <;> exact List.eq_of_mem_replicate h3

theorem blankCell_chars (w : ℕ) (ch : Char)
    (h : ch ∈ (" " ++ pyCenter "" w ++ " |").data) : ch = ' ' ∨ ch = '|' := by
  simp only [String.data_append] at h
  rcases List.mem_append.mp h with h2 | h2
  · rcases List.mem_append.mp h2 with h3 | h3
    · left
      simpa using h3
    · exact Or.inl (pyCenter_empty_data w ch h3)
  · have : ch ∈ [' ', '|'] := h2
    simpa using this

theorem hasSubList_false_of_head_notMem (c0 : Char) (rest l : List Char)
    (h : c0 ∉ l) : hasSubList (c0 :: rest) l = false := by
  induction l with
  | nil => rfl
  | cons c cs ih =>
      have hc : ¬ c0 = c := fun he => h (he ▸ List.mem_cons_self c cs)
      have h2 : c0 ∉ cs := fun hm => h (List.mem_cons_of_mem c hm)
      simp only [hasSubList, ih h2, List.isPrefixOf, Bool.or_false]
      simp [hc]

theorem blankCell_noSub (w : ℕ) (c0 : Char) (rest : List Char)
    (h0 : ¬ c0 = ' ') (h1 : ¬ c0 = '|') :
    hasSubList (c0 :: rest) ((" " ++ pyCenter "" w ++ " |").data) = false := by
  apply hasSubList_false_of_head_notMem
  intro hm
  rcases blankCell_chars w c0 hm with h | h
  · exact h0 h
  · exact h1 h

theorem blankCell_all_space_bar (w : ℕ) :
    ((" " ++ pyCenter "" w ++ " |").data.all
      (fun ch => ch == ' ' || ch == '|')) = true := by
  rw [List.all_eq_true]
  intro ch hch
  rcases blankCell_chars w ch hch with h | h <;> simp [h]

theorem exists_seven (l : List ℕ) (h : l.length = 7) :
    ∃ a b c d e f g, l = [a, b, c, d, e, f, g] := by
  rcases l with _ | ⟨a, l⟩
  · simp at h
  rcases l with _ | ⟨b, l⟩
  · simp at h
  rcases l with _ | ⟨c, l⟩
  · simp at h
  rcases l with _ | ⟨d, l⟩
  · simp at h
  rcases l with _ | ⟨e, l⟩
  · simp at h
  rcases l with _ | ⟨f, l⟩
  · simp at h
  rcases l with _ | ⟨g, l⟩
  · simp at h
  rcases l with _ | ⟨x, l⟩
  · exact ⟨a, b, c, d, e, f, g, rfl⟩
  · simp at h

theorem maxLens_length (results : List HostInfo) :
    (maxLens results).length = 7 := by
  have haux : ∀ (rs : List HostInfo) (acc : List ℕ), acc.length = 7 →
      (rs.foldl (fun acc2 info =>
        List.zipWith (fun m v => Nat.max ((widthStr v).length + 2) m)
          acc2 info.vals) acc).length = 7 := by
    intro rs
    induction rs with
    | nil => intro acc h; exact h
    | cons i tl ih =>
        intro acc h
        simp only [List.foldl_cons]
        apply ih
        rw [List.length_zipWith, h]
        simp [HostInfo.vals]
  exact haux results initLens rfl

/-- C9: in the rendered table row of a `HostInfo` whose `avg` is `None` and
whose `min`/`max` sit at the infinite sentinels (the all-errors case,
`success + failed == 0`), the three cells for `min`, `max`, `avg` render the
empty string — each cell is just the empty value centred between padding, its
characters only spaces and the column separator, and the literal strings
"None", "inf" and "-inf" do not occur in any of them. -/
theorem c9_absent_fields_render_blank (results : List HostInfo)
    (info : HostInfo) (_hmem : info ∈ results) (ha : info.avg = none)
    (hmn : info.min = XFloat.posInf) (hmx : info.max = XFloat.negInf) :
    ∃ w4 w5 w6,
      (rowCells (maxLens results) info).drop 4
        = [" " ++ pyCenter "" w4 ++ " |", " " ++ pyCenter "" w5 ++ " |",
           " " ++ pyCenter "" w6 ++ " |"] ∧
      ((" " ++ pyCenter "" w4 ++ " |").data.all
          (fun ch => ch == ' ' || ch == '|')) = true ∧
      ((" " ++ pyCenter "" w5 ++ " |").data.all
          (fun ch => ch == ' ' || ch == '|')) = true ∧
      ((" " ++ pyCenter "" w6 ++ " |").data.all
          (fun ch => ch == ' ' || ch == '|')) = true ∧
      hasSubList ("None".data) (" " ++ pyCenter "" w4 ++ " |").data = false ∧
      hasSubList ("None".data) (" " ++ pyCenter "" w5 ++ " |").data = false ∧
      hasSubList ("None".data) (" " ++ pyCenter "" w6 ++ " |").data = false ∧
      hasSubList ("inf".data) (" " ++ pyCenter "" w4 ++ " |").data = false ∧
      hasSubList ("inf".data) (" " ++ pyCenter "" w5 ++ " |").data = false ∧
      hasSubList ("inf".data) (" " ++ pyCenter "" w6 ++ " |").data = false ∧
      hasSubList ("-inf".data) (" " ++ pyCenter "" w4 ++ " |").data = false ∧
      hasSubList ("-inf".data) (" " ++ pyCenter "" w5 ++ " |").data = false ∧
      hasSubList ("-inf".data) (" " ++ pyCenter "" w6 ++ " |").data = false := by
  obtain ⟨m0, m1, m2, m3, m4, m5, m6, hml⟩ :=
    exists_seven (maxLens results) (maxLens_length results)
  refine ⟨m4, m5, m6, ?_, blankCell_all_space_bar m4, blankCell_all_space_bar m5,
    blankCell_all_space_bar m6,
    blankCell_noSub m4 'N' ['o', 'n', 'e'] (by decide) (by decide),
    blankCell_noSub m5 'N' ['o', 'n', 'e'] (by decide) (by decide),
    blankCell_noSub m6 'N' ['o', 'n', 'e'] (by decide) (by decide),
    blankCell_noSub m4 'i' ['n', 'f'] (by decide) (by decide),
    blankCell_noSub m5 'i' ['n', 'f'] (by decide) (by decide),
    blankCell_noSub m6 'i' ['n', 'f'] (by decide) (by decide),
    blankCell_noSub m4 '-' ['i', 'n', 'f'] (by decide) (by decide),
    blankCell_noSub m5 '-' ['i', 'n', 'f'] (by decide) (by decide),
    blankCell_noSub m6 '-' ['i', 'n', 'f'] (by decide) (by decide)⟩
  rw [hml]
  simp [rowCells, HostInfo.vals, ha, hmn, hmx, renderStr]

theorem c9_absent_fields_render_blank_witness :
    (⟨"https://a.test", 0, 0, 1, XFloat.posInf, XFloat.negInf, none⟩ : HostInfo)
        ∈ [(⟨"https://a.test", 0, 0, 1, XFloat.posInf, XFloat.negInf, none⟩ : HostInfo)] ∧
      (∃ w4 w5 w6,
        (rowCells
            (maxLens [⟨"https://a.test", 0, 0, 1, XFloat.posInf, XFloat.negInf, none⟩])
            ⟨"https://a.test", 0, 0, 1, XFloat.posInf, XFloat.negInf, none⟩).drop 4
          = [" " ++ pyCenter "" w4 ++ " |", " " ++ pyCenter "" w5 ++ " |",
             " " ++ pyCenter "" w6 ++ " |"] ∧
        ((" " ++ pyCenter "" w4 ++ " |").data.all
            (fun ch => ch == ' ' || ch == '|')) = true ∧
        ((" " ++ pyCenter "" w5 ++ " |").data.all
            (fun ch => ch == ' ' || ch == '|')) = true ∧
        ((" " ++ pyCenter "" w6 ++ " |").data.all
            (fun ch => ch == ' ' || ch == '|')) = true ∧
        hasSubList ("None".data) (" " ++ pyCenter "" w4 ++ " |").data = false ∧
        hasSubList ("None".data) (" " ++ pyCenter "" w5 ++ " |").data = false ∧
        hasSubList ("None".data) (" " ++ pyCenter "" w6 ++ " |").data = false ∧
        hasSubList ("inf".data) (" " ++ pyCenter "" w4 ++ " |").data = false ∧
        hasSubList ("inf".data) (" " ++ pyCenter "" w5 ++ " |").data = false ∧
        hasSubList ("inf".data) (" " ++ pyCenter "" w6 ++ " |").data = false ∧
        hasSubList ("-inf".data) (" " ++ pyCenter "" w4 ++ " |").data = false ∧
        hasSubList ("-inf".data) (" " ++ pyCenter "" w5 ++ " |").data = false ∧
        hasSubList ("-inf".data) (" " ++ pyCenter "" w6 ++ " |").data = false) :=
  ⟨by simp,
   c9_absent_fields_render_blank
    [⟨"https://a.test", 0, 0, 1, XFloat.posInf, XFloat.negInf, none⟩]
    ⟨"https://a.test", 0, 0, 1, XFloat.posInf, XFloat.negInf, none⟩
    (by simp) rfl rfl rfl⟩
